import Mathlib

/-!
Verification of the loudness-normalization core of musicorganizer
(src/organaizer.py), as a shallow embedding in Lean.

Conventions of the embedding:
* Audio samples are rationals (`ℚ`).  The Python code reads float32 buffers
  and performs the gain and peak-limiting multiplications in float64 before
  narrowing back to float32 (`organaizer.py` lines 367-391).  The float64
  stage is modelled as exact rational arithmetic; the narrowing
  `.astype(np.float32)` is modelled by an explicit function `f32 : ℚ → ℚ`
  carried in the environment, about which theorems assume only the float32
  relative-accuracy bound `F32Accurate`.
* `10.0 ** (gain_db / 20.0)` is a transcendental library call; it is
  modelled by the environment function `pow10div20 : ℚ → ℚ`.
* External I/O (soundfile reads and writes, os.path checks, os.remove,
  the pyloudnorm meter, Qt's isInterruptionRequested polls) is resolved by
  oracle fields of an environment record, one field per call site, so one
  environment value fixes one concrete execution of the Python function.
* Messages are the actual strings the code builds (Italian text included),
  because `FileScannerWorker.run` branches on substring tests over them.
-/

/-! ### String helpers mirroring the Python string operations used -/

/-- Python `str.lower()` on the message texts involved (ASCII case folding,
which agrees with Python on every string the code builds). -/
def lowerChars (s : String) : List Char := s.toList.map Char.toLower

/-- Whether the first list is a prefix of the second, as booleans on chars. -/
def chStartsWith : List Char → List Char → Bool
  | [], _ => true
  | _ :: _, [] => false
  | p :: ps, x :: xs => p == x && chStartsWith ps xs

/-- Python `pat in s` (substring test) on char lists. -/
def chContains (p : List Char) : List Char → Bool
  | [] => chStartsWith p []
  | x :: xs => chStartsWith p (x :: xs) || chContains p xs

/-- Python `pat in s` on strings. -/
def strContains (s pat : String) : Bool := chContains pat.toList s.toList

/-- Python `pat in s.lower()` on strings. -/
def strContainsLower (s pat : String) : Bool := chContains pat.toList (lowerChars s)

/-- Python `s.lower().endswith(pat)` for an ASCII pattern. -/
def strEndsWithLower (s pat : String) : Bool :=
  chStartsWith pat.toList.reverse (lowerChars s).reverse

/-- Python `s.startswith(pat)`. -/
def strStartsWith (s pat : String) : Bool := chStartsWith pat.toList s.toList

/-- Python `os.path.basename` on POSIX-style paths. -/
def baseName (s : String) : String :=
  String.mk ((s.toList.reverse.takeWhile (fun c => c ≠ '/')).reverse)

/-- Python `os.path.join(root, name)` on POSIX-style paths. -/
def joinPath (root name : String) : String := root ++ "/" ++ name

/-! ### The numeric core of `FileManager.normalize_and_save`
(organaizer.py lines 367-391) -/

/-- `np.max(np.abs(buffer))`: the peak absolute amplitude of a buffer
(0 for the empty buffer, which the code rules out before reaching it). -/
def maxAbs (l : List ℚ) : ℚ := l.foldr (fun s m => max |s| m) 0

/-- `np.clip(x, -1.0, 1.0)` on one sample (line 391). -/
def clip1 (x : ℚ) : ℚ := max (-1) (min 1 x)

/-- Lines 367-373: `gain_db = target_lufs - measured_lufs`,
`gain_linear = 10.0**(gain_db/20.0)`, and
`(audio_data.astype(np.float64) * gain_linear).astype(np.float32)`:
the float64 product is exact here, `f32` is the narrowing. -/
def gainedBuffer (f32 pow10div20 : ℚ → ℚ) (targetLufs measuredLufs : ℚ)
    (data : List ℚ) : List ℚ :=
  data.map fun s => f32 (s * pow10div20 (targetLufs - measuredLufs))

/-- Lines 367-391: gain, clipping detection (`did_clip = max_amplitude > 1.0`),
peak re-normalization by `0.977 / max_amplitude` when clipping was detected
(again float64 then narrowed), and the defensive `np.clip` to [-1, 1].
Returns the buffer that will be written and the `did_clip` flag. -/
def applyGainAndLimit (f32 pow10div20 : ℚ → ℚ) (targetLufs measuredLufs : ℚ)
    (data : List ℚ) : List ℚ × Bool :=
  let normalized := gainedBuffer f32 pow10div20 targetLufs measuredLufs data
  let peak := maxAbs normalized
  if 1 < peak then
    (((normalized.map fun s => f32 (s * (977 / 1000 / peak))).map clip1), true)
  else
    (normalized.map clip1, false)

/-- The float32 narrowing loses at most one part in 2^24 of the value
(relative rounding error of IEEE-754 binary32 on the range involved). -/
def F32Accurate (f32 : ℚ → ℚ) : Prop :=
  ∀ x : ℚ, |f32 x - x| ≤ |x| / 16777216

/-! ### FileManager.normalize_and_save (organaizer.py lines 282-428) -/

/-- The value `pyln.Meter.integrated_loudness` returns: a finite float, `-inf`
(digital silence), or some other non-finite float (`np.isfinite` false and
`< -70.0` false, e.g. NaN). -/
inductive LufsVal where
  | finite (q : ℚ)
  | negInf
  | notFinite
deriving DecidableEq

/-- Python `np.isfinite(measured_lufs)` (line 351). -/
def LufsVal.isFiniteB : LufsVal → Bool
  | .finite _ => true
  | _ => false

/-- Python `measured_lufs < -70.0` (lines 351-352; on `-inf` it is true, on
NaN false). -/
def LufsVal.ltNeg70 : LufsVal → Bool
  | .finite q => decide (q < -70)
  | .negInf => true
  | .notFinite => false

/-- The finite loudness value; only consulted on the gain path, which the
silence test (line 351) restricts to finite values. -/
def LufsVal.finiteVal : LufsVal → ℚ
  | .finite q => q
  | _ => 0

/-- Line 352: `log_reason = "silenzio" if measured_lufs < -70.0 else "LUFS non finito"`. -/
def silenceReason (v : LufsVal) : String :=
  if v.ltNeg70 then "silenzio" else "LUFS non finito"

/-- Outcome of one `sf.write` call site: success, or an exception carrying the
error text, together with whether a partially-written destination file was
left on disk by the failed write. -/
inductive WriteOutcome where
  | ok
  | fail (errText : String) (leavesPartial : Bool)
deriving DecidableEq

/-- State of the destination path on disk when the call returns (the
destination is modelled as absent before the call). -/
inductive DestFile where
  | absent
  | partialFile
  | written (data : List ℚ)
deriving DecidableEq

/-- How `lufs_meter.integrated_loudness` fails (lines 335-340): MemoryError
is reported specially, anything else generically. -/
inductive LufsErr where
  | memory
  | other
deriving DecidableEq

/-- Oracle environment fixing one concrete execution of
`FileManager.normalize_and_save`: one field per external call or
cancellation poll, in program order. -/
structure NormEnv where
  /-- Line 285: the pyloudnorm/soundfile/numpy availability test. -/
  libsOk : Bool
  /-- Line 287: `os.path.isfile(source_path)`. -/
  sourceIsFile : Bool
  /-- Line 292: first `isInterruptionRequested()` poll, before reading. -/
  cancel1 : Bool
  /-- Line 305: `sf.read(source_path, dtype='float32')`: the samples (channel
  0 and the raw buffer coincide in this single-channel model) and the sample
  rate, or the exception text. -/
  readResult : Except String (List ℚ × ℕ)
  /-- Line 321: the meter's current rate. -/
  meterRate : ℕ
  /-- Line 323: whether re-parameterizing `lufs_meter.rate` succeeds. -/
  meterRateSetOk : Bool
  /-- Line 334: `lufs_meter.integrated_loudness(...)`. -/
  lufsResult : Except LufsErr LufsVal
  /-- Line 345: second poll, after measurement. -/
  cancel2 : Bool
  /-- Line 394: third poll, before writing. -/
  cancel3 : Bool
  /-- Line 358: `sf.write` on the silence-copy path. -/
  writeSilent : WriteOutcome
  /-- Line 404: `sf.write` on the normal gain path. -/
  writeNorm : WriteOutcome
  /-- Line 410: whether `os.remove(destination_path)` in the write-failure
  cleanup succeeds (its `OSError` is swallowed by `pass`). -/
  removeOk : Bool
  /-- Line 371: the library's float computation of `10.0**(gain_db/20.0)`. -/
  pow10div20 : ℚ → ℚ
  /-- The `.astype(np.float32)` narrowing (lines 373 and 386). -/
  f32 : ℚ → ℚ

/-- The tuple `(success, message, measured_lufs)` the Python function returns,
plus the destination file's final on-disk state. -/
structure NormOutcome where
  success : Bool
  message : String
  measuredLufs : Option LufsVal
  dest : DestFile
deriving DecidableEq

/-- Line 308: the read-failure message classification. -/
def readErrorMessage (e : String) : String :=
  if strContainsLower e "format not recognised" then "Formato audio non riconosciuto"
  else if strContainsLower e "permission denied" then "Permesso negato lettura audio"
  else if strContainsLower e "no data" then "File audio senza dati (o corrotto)"
  else "Errore lettura audio: " ++ e

/-- Shallow embedding of `FileManager.normalize_and_save` (lines 282-428).
The outer `except` clauses (lines 418-428) are unreachable here because every
fallible call is already resolved by the environment. -/
def FileManager.normalize_and_save (env : NormEnv) (targetLufs : ℚ)
    (sourcePath destPath : String) : NormOutcome :=
  if !env.libsOk then
    { success := false
      message := "Librerie audio necessarie (pyloudnorm/soundfile/numpy) non disponibili."
      measuredLufs := none, dest := .absent }
  else if !env.sourceIsFile then
    { success := false, message := "File sorgente non trovato: " ++ baseName sourcePath
      measuredLufs := none, dest := .absent }
  else if env.cancel1 then
    { success := false, message := "Operazione interrotta.", measuredLufs := none, dest := .absent }
  else
    match env.readResult with
    | .error e =>
      { success := false, message := readErrorMessage e ++ ": " ++ baseName sourcePath
        measuredLufs := none, dest := .absent }
    | .ok (data, rate) =>
      if data.isEmpty then
        { success := false, message := "Dati audio vuoti o invalidi."
          measuredLufs := none, dest := .absent }
      else if env.meterRate != rate && !env.meterRateSetOk then
        { success := false, message := "Errore init LUFS meter (rate " ++ toString rate ++ "Hz)"
          measuredLufs := none, dest := .absent }
      else
        match env.lufsResult with
        | .error .memory =>
          { success := false, message := "Errore Memoria calcolo LUFS"
            measuredLufs := none, dest := .absent }
        | .error .other =>
          { success := false, message := "Errore calcolo LUFS"
            measuredLufs := none, dest := .absent }
        | .ok measured =>
          if env.cancel2 then
            { success := false, message := "Operazione interrotta."
              measuredLufs := some measured, dest := .absent }
          else if !measured.isFiniteB || measured.ltNeg70 then
            -- Silence path (lines 349-364): gain skipped, buffer written
            -- unmodified; a write failure performs no cleanup.
            match env.writeSilent with
            | .ok =>
              { success := true
                message := "Copiato come WAV (" ++ silenceReason measured ++ ")"
                measuredLufs := some measured, dest := .written data }
            | .fail e leavesPartial =>
              { success := false
                message := "Scrittura file (" ++ silenceReason measured ++ ") fallita: " ++ e
                measuredLufs := some measured
                dest := if leavesPartial then .partialFile else .absent }
          else
            -- Gain path (lines 367-416).
            let core := applyGainAndLimit env.f32 env.pow10div20 targetLufs
              measured.finiteVal data
            if env.cancel3 then
              { success := false, message := "Operazione interrotta."
                measuredLufs := some measured, dest := .absent }
            else
              match env.writeNorm with
              | .ok =>
                { success := true
                  message := "Normalizzato" ++
                    (if core.2 then " (con peak limiting)" else "") ++ " e salvato"
                  measuredLufs := some measured, dest := .written core.1 }
              | .fail e leavesPartial =>
                -- Lines 408-412: best-effort cleanup of the partial file.
                { success := false
                  message := "Scrittura file normalizzato fallita: " ++ e
                  measuredLufs := some measured
                  dest := if leavesPartial then
                      (if env.removeOk then .absent else .partialFile)
                    else .absent }

/-! ### FileManager.load_music_files (organaizer.py lines 171-279) -/

/-- The `MusicFileData` dataclass (lines 138-149).  `display_name` is set by
`__post_init__`; `measured_lufs` is `None` at creation. -/
structure MusicFileData where
  full_path : String
  filename : String
  display_name : String
  duration_ms : ℕ
  measured_lufs : Option ℚ
deriving DecidableEq

/-- Lines 146-149 (`__post_init__`) plus `_process_file` (lines 256-279):
the record built for one accepted file; the mutagen duration probe is an
oracle (`durationMs`), every one of its failure modes yields `0` there. -/
def mkMusicFileData (fullPath name : String) (durationMs : ℕ) : MusicFileData :=
  { full_path := fullPath
    filename := name
    display_name := if name = "" then "N/A" else name
    duration_ms := durationMs
    measured_lufs := none }

/-- Oracle environment for one directory scan: the directory tree as the os
calls report it (`os.path.isdir`, `os.walk`, `os.listdir`, `os.path.isfile`,
`os.access`) and the mutagen duration per path. -/
structure ScanFS where
  /-- Line 173: `os.path.isdir(directory)`. -/
  isDir : Bool
  /-- The `directory` argument. -/
  dirPath : String
  /-- Line 192: `os.walk(directory)` as a list of (root, files) pairs
  (directory entries that are not files are already absent from `files`). -/
  walk : List (String × List String)
  /-- Line 218: `os.listdir(directory)`, or the text of the `OSError` it
  raises (caught at line 246). -/
  listing : Except String (List String)
  /-- Lines 202 and 224: `os.path.isfile` on a full path. -/
  isFile : String → Bool
  /-- Lines 204 and 226: `os.access(path, os.R_OK)`. -/
  readable : String → Bool
  /-- The mutagen-extracted duration for a path (0 when unavailable). -/
  durationMs : String → ℕ

/-- The filename filter and per-file checks shared by both scan branches
(lines 199-210 and 224-232): accept a file iff its name lowercased ends in
".mp3", does not start with "._", the path is a regular file and is
readable; every failure is skipped, never fatal. -/
def processEntry (fs : ScanFS) (root name : String) : Option MusicFileData :=
  if strEndsWithLower name ".mp3" && !strStartsWith name "._" then
    let full := joinPath root name
    if fs.isFile full then
      if fs.readable full then some (mkMusicFileData full name (fs.durationMs full))
      else none
    else none
  else none

/-- Lexicographic `a ≤ b` on char lists. -/
def leChars : List Char → List Char → Bool
  | [], _ => true
  | _ :: _, [] => false
  | a :: as, b :: bs => if a < b then true else if b < a then false else leChars as bs

/-- Comparison `a ≤ b` on lowercased filenames, for the final
`music_files_data.sort(key=lambda x: x.filename.lower())` (line 243). -/
def leLowerName (a b : MusicFileData) : Bool :=
  leChars (lowerChars a.filename) (lowerChars b.filename)

/-- Insertion step of the sort. -/
def insertByName (x : MusicFileData) : List MusicFileData → List MusicFileData
  | [] => [x]
  | y :: ys => if leLowerName x y then x :: y :: ys else y :: insertByName x ys

/-- The sort at line 243 (stable, ascending on lowercased filename). -/
def sortByName : List MusicFileData → List MusicFileData
  | [] => []
  | x :: xs => insertByName x (sortByName xs)

/-- The recursive walk loop (lines 192-215): one cancellation poll per
directory, then that directory's file loop.  `none` = the poll observed an
interruption and the whole scan returns the cancelled result. -/
def scanLoopR (fs : ScanFS) (cancel : ℕ → Bool) : ℕ → List (String × List String) →
    Option (List MusicFileData)
  | _, [] => some []
  | k, (root, files) :: rest =>
    if cancel k then none
    else
      match scanLoopR fs cancel (k + 1) rest with
      | none => none
      | some tail => some (files.filterMap (processEntry fs root) ++ tail)

/-- The non-recursive loop (lines 218-234): one cancellation poll per
directory entry. -/
def scanLoopNR (fs : ScanFS) (cancel : ℕ → Bool) : ℕ → List String →
    Option (List MusicFileData)
  | _, [] => some []
  | k, name :: rest =>
    if cancel k then none
    else
      match scanLoopNR fs cancel (k + 1) rest with
      | none => none
      | some tail => some ((processEntry fs fs.dirPath name).toList ++ tail)

/-- Shallow embedding of `FileManager.load_music_files` (lines 171-253).
`cancel` is the cooperative-cancellation token as the successive
`isInterruptionRequested()` polls read it (`cancel 0` is the pre-walk poll at
line 186).  Unhandled-exception catch-alls (lines 250-253) are unreachable
here. -/
def FileManager.load_music_files (fs : ScanFS) (cancel : ℕ → Bool)
    (recursive : Bool) : List MusicFileData × String :=
  if !fs.isDir then
    ([], "Cartella input non trovata o non è una directory: " ++ fs.dirPath)
  else if cancel 0 then
    ([], "Scansione interrotta dall'utente.")
  else
    let scanned : Except String (Option (List MusicFileData)) :=
      if recursive then .ok (scanLoopR fs cancel 1 fs.walk)
      else
        match fs.listing with
        | .error e => .error e
        | .ok names => .ok (scanLoopNR fs cancel 1 names)
    match scanned with
    | .error e =>
      ([], "Errore OS durante scansione cartella " ++ fs.dirPath ++ ": " ++ e)
    | .ok none => ([], "Scansione interrotta dall'utente.")
    | .ok (some recs) =>
      if recs.isEmpty then ([], "Nessun file MP3 valido trovato.")
      else (sortByName recs, "Caricati " ++ toString recs.length ++ " MP3.")

/-! ### FileManager.move_or_delete_original (organaizer.py lines 431-485) -/

/-- How `os.rename` at line 451 ends: success, an OSError the code classes as
cross-device (errno 18 or matching text, line 455), or any other OSError. -/
inductive RenameOutcome where
  | ok
  | crossDevice (errText : String)
  | osErr (errText : String)
deriving DecidableEq

/-- Oracle environment for one `move_or_delete_original` call. -/
structure DelEnv where
  /-- Line 434: `os.path.isfile(source_full_path)`. -/
  sourceIsFile : Bool
  /-- Line 441: `os.path.isdir(destination_folder)` (move mode). -/
  destIsDir : Bool
  /-- Line 446: `os.path.exists(destination_full_path)` (move mode). -/
  destExists : Bool
  /-- Line 451: the rename attempt (move mode). -/
  renameResult : RenameOutcome
  /-- Lines 458-459: whether `shutil.copy2` followed by `os.remove(source)`
  both succeed in the cross-device fallback. -/
  copyThenRemoveOk : Bool
  /-- The exception text when the fallback fails. -/
  copyFailText : String
  /-- Line 480: `os.remove(source_full_path)` in delete mode, or the OSError
  text it raises. -/
  removeResult : Except String Unit

/-- Shallow embedding of `FileManager.move_or_delete_original`
(lines 431-485).  The partial-copy cleanup inside the fallback failure branch
(lines 463-469) touches the move target, not the source, and is not
modelled further. -/
def FileManager.move_or_delete_original (env : DelEnv) (sourceFullPath : String)
    (destinationFolder : Option String) : Bool × String :=
  if !env.sourceIsFile then
    (false, "Sorgente non trovato per spostamento/elim.: " ++ baseName sourceFullPath)
  else
    match destinationFolder with
    | some folder =>
      if !env.destIsDir then
        (false, "Destinazione per spostamento originale non valida: " ++ folder)
      else if env.destExists then
        (false, "Spostamento orig. saltato: '" ++ baseName sourceFullPath ++
          "' esiste già in destinazione.")
      else
        match env.renameResult with
        | .ok => (true, "Spostato (originale): " ++ baseName sourceFullPath)
        | .crossDevice _ =>
          if env.copyThenRemoveOk then
            (true, "Spostato (originale, copia+elimina): " ++ baseName sourceFullPath)
          else
            (false, "Fallback copia+elimina per originale fallito: " ++ env.copyFailText)
        | .osErr e =>
          (false, "Errore OS durante spostamento (rename) originale '" ++
            baseName sourceFullPath ++ "': " ++ e)
    | none =>
      match env.removeResult with
      | .ok _ => (true, "Originale eliminato: " ++ baseName sourceFullPath)
      | .error e =>
        (false, "Errore OS eliminazione originale '" ++ baseName sourceFullPath ++ "': " ++ e)

/-! ### The worker tasks (organaizer.py lines 784-971) -/

/-- One emission through `WorkerSignals` (lines 784-789): the typed event
stream a task delivers, in emission order.  `α` is the payload type of the
`finished` signal. -/
inductive Ev (α : Type) where
  | progress (msg : String)
  | finished (payload : α)
  | error (msg : String)
  | cancelled (msg : String)
deriving DecidableEq

/-- Whether an event is terminal (finished / error / cancelled). -/
def Ev.isTerminal {α : Type} : Ev α → Bool
  | .progress _ => false
  | _ => true

/-- Oracle environment for one `FileScannerWorker.run` execution. -/
structure ScanWorkerEnv where
  /-- Line 807: whether `QThread.currentThread()` is obtainable. -/
  threadOk : Bool
  /-- The scanned tree, as for `load_music_files`. -/
  fs : ScanFS
  /-- The cancellation token as `load_music_files`'s polls read it. -/
  cancel : ℕ → Bool
  recursive : Bool
  /-- Line 817: the worker's own poll after `load_music_files` returns. -/
  postPoll : Bool

/-- Shallow embedding of `FileScannerWorker.run` (lines 803-844), as the
list of events it emits.  The catch-all `except` (lines 835-842) is
unreachable here. -/
def FileScannerWorker.run (env : ScanWorkerEnv) : List (Ev (List MusicFileData)) :=
  if !env.threadOk then [.error "Errore interno avvio worker."]
  else
    let pre : List (Ev (List MusicFileData)) :=
      [.progress ("Scansione '" ++ baseName env.fs.dirPath ++ "'...")]
    let res := FileManager.load_music_files env.fs env.cancel env.recursive
    if env.postPoll then pre ++ [.cancelled "Scansione annullata."]
    else if strContainsLower res.2 "errore" || strContainsLower res.2 "trovato" ||
        strContainsLower res.2 "validi" then
      -- Lines 822-829: empty results whose status is not a cancellation are
      -- reported as errors; otherwise the list is delivered.
      if res.1.isEmpty && !strContains res.2 "interrotta" then pre ++ [.error res.2]
      else pre ++ [.finished res.1]
    else pre ++ [.finished res.1]

/-- The `NormalizeWorker.NormalizeResult` dataclass (lines 852-861). -/
structure NormalizeResult where
  success : Bool
  message : String
  measured_lufs : Option LufsVal
  output_path : Option String
  original_source_path : Option String
  delete_success : Option Bool
  delete_message : Option String
deriving DecidableEq

/-- Oracle environment for one `NormalizeWorker.run` execution. -/
structure NormWorkerEnv where
  /-- Line 885: whether `QThread.currentThread()` is obtainable. -/
  threadOk : Bool
  /-- Constructor arguments (lines 863-878). -/
  isPreview : Bool
  deleteOriginal : Bool
  sourcePath : String
  destPath : String
  targetLufs : ℚ
  /-- The environment of the inner `normalize_and_save` call (line 902). -/
  nenv : NormEnv
  /-- Line 907: the worker's poll right after `normalize_and_save`. -/
  poll1 : Bool
  /-- Line 913: whether the post-cancellation `os.remove(destination)` succeeds. -/
  cleanupRemoveOk : Bool
  /-- The environment of the `move_or_delete_original` call (line 936). -/
  denv : DelEnv
  /-- Line 954: the final poll before emitting `finished`. -/
  poll2 : Bool

/-- What one `NormalizeWorker.run` execution leaves behind: the emitted
events, the destination file's state, whether `move_or_delete_original` was
invoked on the original, and whether the original was in fact deleted. -/
structure NormRunOut where
  events : List (Ev NormalizeResult)
  dest : DestFile
  deleteCalled : Bool
  originalDeleted : Bool
deriving DecidableEq

/-- Shallow embedding of `NormalizeWorker.run` (lines 882-971).  The
catch-all `except` (lines 963-969) is unreachable here. -/
def NormalizeWorker.run (env : NormWorkerEnv) : NormRunOut :=
  if !env.threadOk then
    { events := [.error "Errore interno avvio worker normalizzazione."]
      dest := .absent, deleteCalled := false, originalDeleted := false }
  else
    let actionVerb := if env.isPreview then "Anteprima" else "Normalizzazione"
    let actionVerbLower := if env.isPreview then "anteprima" else "normalizzazione"
    let pre : List (Ev NormalizeResult) :=
      [.progress (actionVerb ++ " '" ++ baseName env.sourcePath ++ "'...")]
    let nres := FileManager.normalize_and_save env.nenv env.targetLufs
      env.sourcePath env.destPath
    if env.poll1 then
      -- Lines 907-917: cancelled observed; emit Cancelled, then best-effort
      -- removal of the destination file if one exists.
      let destAfter : DestFile :=
        match nres.dest with
        | .absent => .absent
        | d => if env.cleanupRemoveOk then .absent else d
      { events := pre ++ [.cancelled (actionVerb ++ " annullata.")]
        dest := destAfter, deleteCalled := false, originalDeleted := false }
    else if !nres.success then
      -- Lines 925-929: normalization failed; emit the error and stop.
      { events := pre ++ [.error ("Errore " ++ actionVerbLower ++ ": " ++ nres.message)]
        dest := nres.dest, deleteCalled := false, originalDeleted := false }
    else
      let base : NormalizeResult :=
        { success := true, message := nres.message, measured_lufs := nres.measuredLufs
          output_path := some env.destPath, original_source_path := some env.sourcePath
          delete_success := none, delete_message := none }
      if !env.isPreview && env.deleteOriginal then
        -- Lines 931-946: delete the original only here, after success.
        let pre2 := pre ++
          [Ev.progress ("Eliminazione originale '" ++ baseName env.sourcePath ++ "'...")]
        let del := FileManager.move_or_delete_original env.denv env.sourcePath none
        let r2 : NormalizeResult :=
          { base with
            message := if del.1 then base.message
              else base.message ++ " (ATTENZIONE: " ++ del.2 ++ ")"
            delete_success := some del.1, delete_message := some del.2 }
        if env.poll2 then
          { events := pre2 ++ [.cancelled (actionVerb ++ " annullata (finale).")]
            dest := nres.dest, deleteCalled := true, originalDeleted := del.1 }
        else
          { events := pre2 ++ [.finished r2], dest := nres.dest
            deleteCalled := true, originalDeleted := del.1 }
      else
        if env.poll2 then
          { events := pre ++ [.cancelled (actionVerb ++ " annullata (finale).")]
            dest := nres.dest, deleteCalled := false, originalDeleted := false }
        else
          { events := pre ++ [.finished base], dest := nres.dest
            deleteCalled := false, originalDeleted := false }

/-! ### MainWindow.start_worker: the single execution slot
(organaizer.py lines 1375-1403) -/

/-- The active `QThread`, as far as `start_worker` consults it. -/
structure WorkerThread where
  running : Bool
deriving DecidableEq

/-- The orchestrator state `start_worker` reads and writes:
`self.active_worker_thread`, `self.worker_object`, and the busy flag set by
`_set_busy`. -/
structure MainState where
  activeWorkerThread : Option WorkerThread
  workerObjectName : Option String
  busy : Bool
deriving DecidableEq

/-- Shallow embedding of `MainWindow.start_worker` (lines 1375-1403): the
updated state and the returned boolean.  When a worker thread is active and
running, the call warns and returns `False` without touching any state
(lines 1377-1380); there is no queue to which the refused worker could be
added. -/
def MainWindow.start_worker (st : MainState) (workerName : String) :
    MainState × Bool :=
  let busyNow :=
    match st.activeWorkerThread with
    | some t => t.running
    | none => false
  if busyNow then (st, false)
  else
    ({ activeWorkerThread := some { running := true }
       workerObjectName := some workerName
       busy := true }, true)

/-! ### Signal delivery to the controller
(organaizer.py lines 784-793, 847-849 and 1388-1392) -/

/-- Connection state of one `WorkerSignals` object: how many controller
slots are connected to each of its four signals.  `WorkerSignals()` is
created once per worker class as a class attribute (lines 793 and 849), so
one such object is shared by every worker instance of that class; instances
never assign `self.signals`. -/
structure SignalConnections where
  progressSlots : ℕ
  finishedSlots : ℕ
  errorSlots : ℕ
  cancelledSlots : ℕ
deriving DecidableEq

/-- The class attribute right after `WorkerSignals()` is constructed:
nothing connected yet. -/
def freshSignals : SignalConnections :=
  { progressSlots := 0, finishedSlots := 0, errorSlots := 0, cancelledSlots := 0 }

/-- Lines 1389-1392 of `start_worker`: one more slot is connected to each of
the four signals (`_on_worker_finished`, `_on_worker_error`, a fresh progress
lambda, `_on_worker_cancelled`), without `Qt.UniqueConnection`.  The file
contains no `disconnect`, and the later `worker_object.deleteLater()`
destroys only the worker instance, not the class-level signals object, so
connections accumulate across sequential submissions of the same worker
class. -/
def connectWorkerSignals (c : SignalConnections) : SignalConnections :=
  { progressSlots := c.progressSlots + 1, finishedSlots := c.finishedSlots + 1
    errorSlots := c.errorSlots + 1, cancelledSlots := c.cancelledSlots + 1 }

/-- Delivery of one emitted signal: Qt invokes every connected slot once per
emission, so the controller receives one copy of the event per accumulated
connection. -/
def deliverEvent {α : Type} (c : SignalConnections) : Ev α → List (Ev α)
  | .progress m => List.replicate c.progressSlots (.progress m)
  | .finished p => List.replicate c.finishedSlots (.finished p)
  | .error m => List.replicate c.errorSlots (.error m)
  | .cancelled m => List.replicate c.cancelledSlots (.cancelled m)

/-- The controller-side event sequence for one task run: each event the run
emits, delivered once per connection accumulated on the class-level signals
object at that time. -/
def deliverTrace {α : Type} (c : SignalConnections) (l : List (Ev α)) :
    List (Ev α) :=
  l.flatMap (deliverEvent c)

/-! ### Trace well-formedness and concrete environments -/

/-- A task's event stream is well formed: its terminal events number exactly
one, the terminal event comes last, hence every `progress` precedes it and
nothing (in particular no `finished` or `error`) follows a `cancelled`. -/
def OneTerminalTrace {α : Type} (l : List (Ev α)) : Prop :=
  l.countP (fun e => e.isTerminal) = 1 ∧
  ∃ pre t, l = pre ++ [t] ∧ Ev.isTerminal t = true ∧ ∀ e ∈ pre, Ev.isTerminal e = false

/-- The identity narrowing (an exact float32, used to instantiate witnesses). -/
def idF32 : ℚ → ℚ := fun x => x

/-- A constant gain oracle (used to instantiate witnesses). -/
def onePow : ℚ → ℚ := fun _ => 1

/-- A run in which the meter reports `-inf` (digital silence) for the
out-of-range buffer `[2]`, and both writes would succeed. -/
def silentOkEnv : NormEnv :=
  { libsOk := true, sourceIsFile := true, cancel1 := false
    readResult := .ok ([2], 44100), meterRate := 44100, meterRateSetOk := true
    lufsResult := .ok .negInf, cancel2 := false, cancel3 := false
    writeSilent := .ok, writeNorm := .ok, removeOk := true
    pow10div20 := onePow, f32 := idF32 }

/-- The same run except that the silence-path `sf.write` fails after having
created a partial destination file. -/
def silentFailEnv : NormEnv :=
  { silentOkEnv with writeSilent := .fail "No space left on device" true }

/-- A gain-path run: buffer `[1]`, measured loudness -18 LUFS, exact
narrowing, gain oracle returning 1. -/
def gainOkEnv : NormEnv :=
  { silentOkEnv with readResult := .ok ([1], 44100), lufsResult := .ok (.finite (-18)) }

/-- A delete-mode environment in which `os.remove` succeeds. -/
def okDelEnv : DelEnv :=
  { sourceIsFile := true, destIsDir := true, destExists := false
    renameResult := .ok, copyThenRemoveOk := true, copyFailText := ""
    removeResult := .ok () }

/-- A normalize-and-move worker run over `silentOkEnv` with no cancellation. -/
def moveWorkerEnv : NormWorkerEnv :=
  { threadOk := true, isPreview := false, deleteOriginal := true
    sourcePath := "a.mp3", destPath := "out/a.wav", targetLufs := -14
    nenv := silentOkEnv, poll1 := false, cleanupRemoveOk := true
    denv := okDelEnv, poll2 := false }

/-- A preview worker run (no deletion of the original). -/
def previewWorkerEnv : NormWorkerEnv :=
  { moveWorkerEnv with isPreview := true, deleteOriginal := false }

/-- A directory with one acceptable MP3, one AppleDouble "._" file and one
non-MP3 file. -/
def scanFS1 : ScanFS :=
  { isDir := true, dirPath := "music"
    walk := [("music", ["Song.MP3", "._junk.mp3", "notes.txt"])]
    listing := .ok ["Song.MP3", "._junk.mp3", "notes.txt"]
    isFile := fun _ => true, readable := fun _ => true, durationMs := fun _ => 0 }

/-- A scan worker run over `scanFS1` with no cancellation. -/
def scanWorkerEnv1 : ScanWorkerEnv :=
  { threadOk := true, fs := scanFS1, cancel := fun _ => false
    recursive := false, postPoll := false }

/-- An orchestrator state whose execution slot is held by a running thread. -/
def busyState : MainState :=
  { activeWorkerThread := some { running := true }
    workerObjectName := some "FileScannerWorker-1", busy := true }

/-! ### Lemmas about the numeric core -/

theorem maxAbs_cons (x : ℚ) (l : List ℚ) : maxAbs (x :: l) = max |x| (maxAbs l) := rfl

theorem maxAbs_nonneg (l : List ℚ) : 0 ≤ maxAbs l := by
  induction l with
  | nil => exact le_refl 0
  | cons x l ih => rw [maxAbs_cons]; exact le_trans ih (le_max_right _ _)

theorem abs_le_maxAbs {x : ℚ} {l : List ℚ} (hx : x ∈ l) : |x| ≤ maxAbs l := by
  induction l with
  | nil => cases hx
  | cons y l ih =>
    rw [maxAbs_cons]
    rcases List.mem_cons.mp hx with h | h
    · rw [h]; exact le_max_left _ _
    · exact le_trans (ih h) (le_max_right _ _)

theorem maxAbs_le {c : ℚ} {l : List ℚ} (hc : 0 ≤ c) (h : ∀ x ∈ l, |x| ≤ c) :
    maxAbs l ≤ c := by
  induction l with
  | nil => exact hc
  | cons y l ih =>
    rw [maxAbs_cons]
    exact max_le (h y (List.mem_cons_self y l))
      (ih fun x hx => h x (List.mem_cons_of_mem y hx))

theorem exists_abs_eq_maxAbs {l : List ℚ} (h : 0 < maxAbs l) :
    ∃ x ∈ l, |x| = maxAbs l := by
  induction l with
  | nil => exact absurd h (lt_irrefl 0)
  | cons y l ih =>
    rw [maxAbs_cons] at h ⊢
    rcases le_total (maxAbs l) |y| with hle | hle
    · exact ⟨y, List.mem_cons_self y l, (max_eq_left hle).symm⟩
    · rw [max_eq_right hle] at h ⊢
      obtain ⟨x, hx, he⟩ := ih h
      exact ⟨x, List.mem_cons_of_mem y hx, he⟩

theorem abs_clip1_le_one (x : ℚ) : |clip1 x| ≤ 1 := by
  unfold clip1
  rw [abs_le]
  exact ⟨le_max_left _ _, max_le (by norm_num) (min_le_left _ _)⟩

theorem clip1_eq_self {x : ℚ} (h : |x| ≤ 1) : clip1 x = x := by
  rw [abs_le] at h
  unfold clip1
  rw [min_eq_right h.2, max_eq_right h.1]

theorem map_clip1_eq {l : List ℚ} (h : ∀ x ∈ l, |x| ≤ 1) : l.map clip1 = l := by
  have hcongr : ∀ x ∈ l, clip1 x = id x := fun x hx => clip1_eq_self (h x hx)
  rw [List.map_congr_left hcongr, List.map_id]

theorem f32_abs_le {f : ℚ → ℚ} (hf : F32Accurate f) (z : ℚ) :
    |f z| ≤ |z| + |z| / 16777216 := by
  have h := hf z
  have h2 : |f z| - |z| ≤ |f z - z| := abs_sub_abs_le_abs_sub _ _
  linarith

theorem f32_abs_ge {f : ℚ → ℚ} (hf : F32Accurate f) (z : ℚ) :
    |z| - |z| / 16777216 ≤ |f z| := by
  have h := hf z
  have h2 : |z| - |f z| ≤ |z - f z| := abs_sub_abs_le_abs_sub _ _
  rw [abs_sub_comm] at h2
  linarith

/-! ### Lemmas about the scan -/

theorem mem_insertByName {a x : MusicFileData} {l : List MusicFileData} :
    a ∈ insertByName x l ↔ a = x ∨ a ∈ l := by
  induction l with
  | nil => simp [insertByName]
  | cons y ys ih =>
    unfold insertByName
    split
    · simp [List.mem_cons]
    · simp [List.mem_cons, ih]
      tauto

theorem mem_sortByName {a : MusicFileData} {l : List MusicFileData} :
    a ∈ sortByName l ↔ a ∈ l := by
  induction l with
  | nil => simp [sortByName]
  | cons y ys ih => simp [sortByName, mem_insertByName, ih, List.mem_cons]

theorem processEntry_some {fs : ScanFS} {root name : String} {r : MusicFileData}
    (h : processEntry fs root name = some r) :
    strEndsWithLower r.filename ".mp3" = true ∧ strStartsWith r.filename "._" = false ∧
      fs.isFile r.full_path = true ∧ fs.readable r.full_path = true := by
  unfold processEntry at h
  split at h
  case isTrue hcond =>
    rw [Bool.and_eq_true, Bool.not_eq_true'] at hcond
    dsimp only at h
    split at h
    case isTrue hfile =>
      split at h
      case isTrue hread =>
        cases h
        exact ⟨hcond.1, hcond.2, hfile, hread⟩
      case isFalse => cases h
    case isFalse => cases h
  case isFalse => cases h

theorem scanLoopR_mem {fs : ScanFS} {cancel : ℕ → Bool} {r : MusicFileData} :
    ∀ {l : List (String × List String)} {k : ℕ} {recs : List MusicFileData},
      scanLoopR fs cancel k l = some recs → r ∈ recs →
      ∃ root name, processEntry fs root name = some r := by
  intro l
  induction l with
  | nil =>
    intro k recs hs hr
    rw [scanLoopR] at hs
    cases hs
    cases hr
  | cons p rest ih =>
    intro k recs hs hr
    obtain ⟨root, files⟩ := p
    rw [scanLoopR] at hs
    split at hs
    · cases hs
    · split at hs
      · cases hs
      case h_2 tail htail =>
        cases hs
        rcases List.mem_append.mp hr with hmem | hmem
        · obtain ⟨name, _, hp⟩ := List.mem_filterMap.mp hmem
          exact ⟨root, name, hp⟩
        · exact ih htail hmem

theorem scanLoopNR_mem {fs : ScanFS} {cancel : ℕ → Bool} {r : MusicFileData} :
    ∀ {l : List String} {k : ℕ} {recs : List MusicFileData},
      scanLoopNR fs cancel k l = some recs → r ∈ recs →
      ∃ name, processEntry fs fs.dirPath name = some r := by
  intro l
  induction l with
  | nil =>
    intro k recs hs hr
    rw [scanLoopNR] at hs
    cases hs
    cases hr
  | cons name rest ih =>
    intro k recs hs hr
    rw [scanLoopNR] at hs
    split at hs
    · cases hs
    · split at hs
      · cases hs
      case h_2 tail htail =>
        cases hs
        rcases List.mem_append.mp hr with hmem | hmem
        · rw [Option.mem_toList, Option.mem_def] at hmem
          exact ⟨name, hmem⟩
        · exact ih htail hmem

theorem scanLoopR_cancel_cases (fs : ScanFS) (cancel : ℕ → Bool) :
    ∀ (l : List (String × List String)) (k : ℕ),
      scanLoopR fs cancel k l = none ∨
        scanLoopR fs cancel k l = scanLoopR fs (fun _ => false) k l := by
  intro l
  induction l with
  | nil => intro k; right; rfl
  | cons p rest ih =>
    intro k
    obtain ⟨root, files⟩ := p
    by_cases hc : cancel k
    · left; rw [scanLoopR]; simp [hc]
    · rcases ih (k + 1) with h | h
      · left; rw [scanLoopR]; simp [hc, h]
      · right
        rw [scanLoopR, scanLoopR]
        simp [hc, h]

theorem scanLoopNR_cancel_cases (fs : ScanFS) (cancel : ℕ → Bool) :
    ∀ (l : List String) (k : ℕ),
      scanLoopNR fs cancel k l = none ∨
        scanLoopNR fs cancel k l = scanLoopNR fs (fun _ => false) k l := by
  intro l
  induction l with
  | nil => intro k; right; rfl
  | cons name rest ih =>
    intro k
    by_cases hc : cancel k
    · left; rw [scanLoopNR]; simp [hc]
    · rcases ih (k + 1) with h | h
      · left; rw [scanLoopNR]; simp [hc, h]
      · right
        rw [scanLoopNR, scanLoopNR]
        simp [hc, h]

theorem peakLimit_bounds {f32 : ℚ → ℚ} (hf : F32Accurate f32) {g : List ℚ}
    (hpk : 1 < maxAbs g) :
    ((g.map fun s => f32 (s * (977 / 1000 / maxAbs g))).map clip1 =
       g.map fun s => f32 (s * (977 / 1000 / maxAbs g))) ∧
    |maxAbs (g.map fun s => f32 (s * (977 / 1000 / maxAbs g))) - 977 / 1000| ≤ 1 / 1000 ∧
    maxAbs (g.map fun s => f32 (s * (977 / 1000 / maxAbs g))) ≤ 1 := by
  have h0pk : (0 : ℚ) < maxAbs g := lt_trans zero_lt_one hpk
  have hkpos : (0 : ℚ) < 977 / 1000 / maxAbs g := div_pos (by norm_num) h0pk
  have helem : ∀ y ∈ g.map fun s => f32 (s * (977 / 1000 / maxAbs g)),
      |y| ≤ 977 / 1000 + 977 / 1000 / 16777216 := by
    intro y hy
    obtain ⟨s, hs, rfl⟩ := List.mem_map.mp hy
    have h1 : |s * (977 / 1000 / maxAbs g)| ≤ 977 / 1000 := by
      rw [abs_mul, abs_of_pos hkpos]
      have h2 : |s| * (977 / 1000 / maxAbs g) ≤ maxAbs g * (977 / 1000 / maxAbs g) :=
        mul_le_mul_of_nonneg_right (abs_le_maxAbs hs) hkpos.le
      have h3 : maxAbs g * (977 / 1000 / maxAbs g) = 977 / 1000 := by
        field_simp
        ring
      linarith
    have h4 := f32_abs_le hf (s * (977 / 1000 / maxAbs g))
    linarith
  have hle1 : ∀ y ∈ g.map fun s => f32 (s * (977 / 1000 / maxAbs g)), |y| ≤ 1 := by
    intro y hy
    have := helem y hy
    have hnum : (977 : ℚ) / 1000 + 977 / 1000 / 16777216 ≤ 1 := by norm_num
    linarith
  have hmapclip := map_clip1_eq hle1
  obtain ⟨s₀, hs₀, habs⟩ := exists_abs_eq_maxAbs h0pk
  have hz₀ : |s₀ * (977 / 1000 / maxAbs g)| = 977 / 1000 := by
    rw [abs_mul, abs_of_pos hkpos, habs]
    field_simp
    ring
  have hy₀mem : f32 (s₀ * (977 / 1000 / maxAbs g)) ∈
      g.map fun s => f32 (s * (977 / 1000 / maxAbs g)) :=
    List.mem_map_of_mem _ hs₀
  have hy₀ge := f32_abs_ge hf (s₀ * (977 / 1000 / maxAbs g))
  rw [hz₀] at hy₀ge
  have hpeakge : 977 / 1000 - 977 / 1000 / 16777216 ≤
      maxAbs (g.map fun s => f32 (s * (977 / 1000 / maxAbs g))) :=
    le_trans hy₀ge (abs_le_maxAbs hy₀mem)
  have hpeakle : maxAbs (g.map fun s => f32 (s * (977 / 1000 / maxAbs g))) ≤
      977 / 1000 + 977 / 1000 / 16777216 :=
    maxAbs_le (by norm_num) helem
  have hnum2 : (977 : ℚ) / 1000 / 16777216 ≤ 1 / 1000 := by norm_num
  refine ⟨hmapclip, ?_, by linarith⟩
  rw [abs_sub_le_iff]
  constructor <;> linarith

/-- C2 (corrected): whenever the gain path runs, the written buffer's peak
absolute value is at most 1; and whenever the post-gain peak exceeds 1.0 the
entire buffer is uniformly rescaled by `0.977 / peak` (each product narrowed
by `f32`), after which the peak is 0.977 to within 0.001.  The claim's
unrestricted form ("for every input buffer") fails on the silence-copy path,
which writes the input unmodified (see the counterexample). -/
theorem gain_path_peak_limiting (f32 pow10 : ℚ → ℚ) (t m : ℚ) (data : List ℚ)
    (hf : F32Accurate f32) :
    maxAbs (applyGainAndLimit f32 pow10 t m data).1 ≤ 1 ∧
    (1 < maxAbs (gainedBuffer f32 pow10 t m data) →
      (applyGainAndLimit f32 pow10 t m data).1 =
        (gainedBuffer f32 pow10 t m data).map
          (fun s => f32 (s * (977 / 1000 / maxAbs (gainedBuffer f32 pow10 t m data)))) ∧
      |maxAbs (applyGainAndLimit f32 pow10 t m data).1 - 977 / 1000| ≤ 1 / 1000) := by
  have hA : ∀ gl : List ℚ, maxAbs (gl.map clip1) ≤ 1 := by
    intro gl
    refine maxAbs_le (by norm_num) ?_
    intro x hx
    obtain ⟨y, _, rfl⟩ := List.mem_map.mp hx
    exact abs_clip1_le_one y
  by_cases hpk : 1 < maxAbs (gainedBuffer f32 pow10 t m data)
  · obtain ⟨hmapclip, hbound, hle1⟩ := peakLimit_bounds hf hpk
    have happ : (applyGainAndLimit f32 pow10 t m data).1 =
        ((gainedBuffer f32 pow10 t m data).map
          (fun s => f32 (s * (977 / 1000 / maxAbs (gainedBuffer f32 pow10 t m data))))).map
          clip1 := by
      unfold applyGainAndLimit
      dsimp only
      rw [if_pos hpk]
    refine ⟨by rw [happ]; exact hA _, fun _ => ?_⟩
    rw [happ, hmapclip]
    exact ⟨rfl, hbound⟩
  · have happ : (applyGainAndLimit f32 pow10 t m data).1 =
        (gainedBuffer f32 pow10 t m data).map clip1 := by
      unfold applyGainAndLimit
      dsimp only
      rw [if_neg hpk]
    exact ⟨by rw [happ]; exact hA _, fun hcon => absurd hcon hpk⟩

/-- C2, counterexample to the claim as stated: a buffer whose measured
loudness is `-inf` takes the silence-copy path and is written unmodified,
so the written buffer `[2]` has peak 2 > 1.0. -/
theorem peak_invariant_fails_on_silent_copy :
    (FileManager.normalize_and_save silentOkEnv (-14) "a.mp3" "out/a.wav").success = true ∧
    (FileManager.normalize_and_save silentOkEnv (-14) "a.mp3" "out/a.wav").dest =
      DestFile.written [2] ∧
    ¬ maxAbs [2] ≤ 1 := by
  refine ⟨rfl, rfl, ?_⟩
  decide

/-- C2, witness: the amended theorem applied at the exact narrowing, a
constant gain oracle and the clipping buffer `[2]`. -/
theorem gain_path_peak_limiting_witness :
    F32Accurate idF32 ∧
    (maxAbs (applyGainAndLimit idF32 onePow (-3) (-6) [2]).1 ≤ 1 ∧
      (1 < maxAbs (gainedBuffer idF32 onePow (-3) (-6) [2]) →
        (applyGainAndLimit idF32 onePow (-3) (-6) [2]).1 =
          (gainedBuffer idF32 onePow (-3) (-6) [2]).map
            (fun s => idF32 (s * (977 / 1000 /
              maxAbs (gainedBuffer idF32 onePow (-3) (-6) [2])))) ∧
        |maxAbs (applyGainAndLimit idF32 onePow (-3) (-6) [2]).1 - 977 / 1000| ≤
          1 / 1000)) := by
  have hacc : F32Accurate idF32 := by
    intro x
    simp only [idF32, sub_self, abs_zero]
    positivity
  exact ⟨hacc, gain_path_peak_limiting idF32 onePow (-3) (-6) [2] hacc⟩

/-- C1 (code_bug): the silence-copy path of `normalize_and_save` performs no
cleanup when its `sf.write` fails (organaizer.py lines 361-364, in contrast
with lines 408-411 of the normal path), so the partially-written destination
file remains on disk while the error result is returned. -/
theorem silence_write_failure_keeps_partial_file :
    (FileManager.normalize_and_save silentFailEnv (-14) "a.mp3" "out/a.wav").success
        = false ∧
    (FileManager.normalize_and_save silentFailEnv (-14) "a.mp3" "out/a.wav").dest
        = DestFile.partialFile :=
  ⟨rfl, rfl⟩

/-- C3 (confirmed): whenever the measured loudness is non-finite or below
-70 dB, `normalize_and_save` skips the gain entirely, writes the sample
buffer unmodified, and returns a success result whose message says the
source was copied as silent ("Copiato come WAV (...)"), provided the write
itself succeeds. -/
theorem silence_policy_copies_unmodified (env : NormEnv) (t : ℚ) (src dst : String)
    (data : List ℚ) (rate : ℕ) (v : LufsVal)
    (hlibs : env.libsOk = true) (hsrc : env.sourceIsFile = true)
    (hc1 : env.cancel1 = false) (hread : env.readResult = .ok (data, rate))
    (hne : data ≠ []) (hrate : env.meterRate = rate ∨ env.meterRateSetOk = true)
    (hl : env.lufsResult = .ok v) (hc2 : env.cancel2 = false)
    (hsil : v.isFiniteB = false ∨ v.ltNeg70 = true)
    (hw : env.writeSilent = .ok) :
    FileManager.normalize_and_save env t src dst =
      { success := true
        message := "Copiato come WAV (" ++ silenceReason v ++ ")"
        measuredLufs := some v
        dest := .written data } := by
  have hemp : data.isEmpty = false := by
    cases data with
    | nil => exact absurd rfl hne
    | cons a l => rfl
  have hmeter : (env.meterRate != rate && !env.meterRateSetOk) = false := by
    rcases hrate with h | h <;> simp [h]
  have hsilb : (!v.isFiniteB || v.ltNeg70) = true := by
    rcases hsil with h | h <;> simp [h]
  unfold FileManager.normalize_and_save
  simp [hlibs, hsrc, hc1, hread, hemp, hmeter, hl, hc2, hsilb, hw]

/-- C3, witness: the silence policy applied to the `-inf` run over `[2]`. -/
theorem silence_policy_copies_unmodified_witness :
    FileManager.normalize_and_save silentOkEnv (-14) "a.mp3" "out/a.wav" =
      { success := true
        message := "Copiato come WAV (" ++ silenceReason .negInf ++ ")"
        measuredLufs := some .negInf
        dest := .written [2] } :=
  silence_policy_copies_unmodified silentOkEnv (-14) "a.mp3" "out/a.wav" [2] 44100
    .negInf rfl rfl rfl rfl (by decide) (Or.inl rfl) rfl rfl (Or.inl rfl) rfl

/-- C8 (confirmed): on the gain path the engine computes
`gain_db = target_loudness - measured_loudness`, converts it to the linear
factor `10^(gain_db/20)` (the oracle `pow10div20`), and multiplies every
sample by that factor, the product taken exactly (float64) and narrowed once
by `f32`; with no clipping and a successful write, the written buffer is
exactly that map. -/
theorem gain_formula_double_precision (env : NormEnv) (t : ℚ) (src dst : String)
    (data : List ℚ) (rate : ℕ) (m : ℚ)
    (hlibs : env.libsOk = true) (hsrc : env.sourceIsFile = true)
    (hc1 : env.cancel1 = false) (hread : env.readResult = .ok (data, rate))
    (hne : data ≠ []) (hrate : env.meterRate = rate ∨ env.meterRateSetOk = true)
    (hl : env.lufsResult = .ok (.finite m)) (hc2 : env.cancel2 = false)
    (hm : ¬ m < -70) (hc3 : env.cancel3 = false) (hw : env.writeNorm = .ok)
    (hpeak : maxAbs (gainedBuffer env.f32 env.pow10div20 t m data) ≤ 1) :
    (FileManager.normalize_and_save env t src dst).dest =
      DestFile.written (data.map fun s => env.f32 (s * env.pow10div20 (t - m))) := by
  have hemp : data.isEmpty = false := by
    cases data with
    | nil => exact absurd rfl hne
    | cons a l => rfl
  have hmeter : (env.meterRate != rate && !env.meterRateSetOk) = false := by
    rcases hrate with h | h <;> simp [h]
  have hsilf : (!(LufsVal.finite m).isFiniteB || (LufsVal.finite m).ltNeg70) = false := by
    simp [LufsVal.isFiniteB, LufsVal.ltNeg70, hm]
  have hcore : (applyGainAndLimit env.f32 env.pow10div20 t m data).1 =
      gainedBuffer env.f32 env.pow10div20 t m data := by
    have hnl : ¬ 1 < maxAbs (gainedBuffer env.f32 env.pow10div20 t m data) :=
      not_lt.mpr hpeak
    unfold applyGainAndLimit
    dsimp only
    rw [if_neg hnl]
    exact map_clip1_eq fun x hx => le_trans (abs_le_maxAbs hx) hpeak
  unfold FileManager.normalize_and_save
  simp [hlibs, hsrc, hc1, hread, hemp, hmeter, hl, hc2, hsilf, hc3, hw,
    LufsVal.finiteVal, hcore, gainedBuffer]

/-- C8, witness: the gain formula at the exact narrowing, constant gain
oracle 1, buffer `[1]`, measured -18 LUFS, target -14 LUFS. -/
theorem gain_formula_double_precision_witness :
    (FileManager.normalize_and_save gainOkEnv (-14) "a.mp3" "out/a.wav").dest =
      DestFile.written
        ([1].map fun s => gainOkEnv.f32 (s * gainOkEnv.pow10div20 (-14 - (-18)))) :=
  gain_formula_double_precision gainOkEnv (-14) "a.mp3" "out/a.wav" [1] 44100 (-18)
    rfl rfl rfl rfl (by decide) (Or.inl rfl) rfl rfl (by norm_num) rfl rfl
    (by norm_num [gainOkEnv, silentOkEnv, gainedBuffer, maxAbs, idF32, onePow])

/-- C5 (confirmed): a `start_worker` call while a worker thread is active and
running returns False immediately and changes no orchestrator state; the
refused worker is not recorded anywhere (there is no queue field at all). -/
theorem busy_submit_is_rejected (st : MainState) (w : String) (t : WorkerThread)
    (hactive : st.activeWorkerThread = some t) (hrun : t.running = true) :
    MainWindow.start_worker st w = (st, false) := by
  unfold MainWindow.start_worker
  rw [hactive]
  dsimp only
  rw [hrun]
  rfl

/-- C5, witness: the busy state rejects a second submission unchanged. -/
theorem busy_submit_is_rejected_witness :
    MainWindow.start_worker busyState "NormalizeWorker-2" = (busyState, false) :=
  busy_submit_is_rejected busyState "NormalizeWorker-2" { running := true } rfl rfl

/-- C7 (confirmed): a cancellation observed at the pre-walk checkpoint yields
the empty list with the distinct cancelled status, and in general every scan
returns either exactly that cancelled result or the result of a completely
uninterrupted scan - never a partial list. -/
theorem scan_cancellation_all_or_nothing (fs : ScanFS) (cancel : ℕ → Bool)
    (recursive : Bool) :
    (fs.isDir = true → cancel 0 = true →
      FileManager.load_music_files fs cancel recursive =
        ([], "Scansione interrotta dall'utente.")) ∧
    (FileManager.load_music_files fs cancel recursive =
        ([], "Scansione interrotta dall'utente.") ∨
      FileManager.load_music_files fs cancel recursive =
        FileManager.load_music_files fs (fun _ => false) recursive) := by
  constructor
  · intro hdir hc
    unfold FileManager.load_music_files
    simp [hdir, hc]
  · by_cases hdir : fs.isDir
    · by_cases hc : cancel 0
      · left
        unfold FileManager.load_music_files
        simp [hdir, hc]
      · rcases Bool.eq_false_or_eq_true recursive with hrec | hrec
        · rcases scanLoopR_cancel_cases fs cancel fs.walk 1 with h | h
          · left
            unfold FileManager.load_music_files
            simp [hdir, hc, hrec, h]
          · right
            unfold FileManager.load_music_files
            simp [hdir, hc, hrec, h]
        · cases hlist : fs.listing with
          | error e =>
            right
            unfold FileManager.load_music_files
            simp [hdir, hc, hrec, hlist]
          | ok names =>
            rcases scanLoopNR_cancel_cases fs cancel names 1 with h | h
            · left
              unfold FileManager.load_music_files
              simp [hdir, hc, hrec, hlist, h]
            · right
              unfold FileManager.load_music_files
              simp [hdir, hc, hrec, hlist, h]
    · right
      unfold FileManager.load_music_files
      simp [hdir]

/-- C7, witness: cancellation requested before the scan of `scanFS1`. -/
theorem scan_cancellation_all_or_nothing_witness :
    FileManager.load_music_files scanFS1 (fun _ => true) false =
      ([], "Scansione interrotta dall'utente.") :=
  (scan_cancellation_all_or_nothing scanFS1 (fun _ => true) false).1 rfl rfl

/-- C9 (confirmed): every record in the result of `load_music_files` refers
to a path `os.path.isfile` and `os.access(..., R_OK)` accepted, whose
filename lowercased ends in ".mp3" and does not start with "._". -/
theorem scan_records_satisfy_filter (fs : ScanFS) (cancel : ℕ → Bool)
    (recursive : Bool) (r : MusicFileData)
    (hmem : r ∈ (FileManager.load_music_files fs cancel recursive).1) :
    strEndsWithLower r.filename ".mp3" = true ∧
      strStartsWith r.filename "._" = false ∧
      fs.isFile r.full_path = true ∧ fs.readable r.full_path = true := by
  unfold FileManager.load_music_files at hmem
  split at hmem
  · simp at hmem
  · split at hmem
    · simp at hmem
    · dsimp only at hmem
      split at hmem
      · simp at hmem
      · simp at hmem
      next recs heq =>
        split at hmem
        · simp at hmem
        · rw [mem_sortByName] at hmem
          split at heq
          · injection heq with heq2
            obtain ⟨root, name, hp⟩ := scanLoopR_mem heq2 hmem
            exact processEntry_some hp
          · split at heq
            · cases heq
            · injection heq with heq2
              obtain ⟨name, hp⟩ := scanLoopNR_mem heq2 hmem
              exact processEntry_some hp

/-- C9, witness: the one acceptable file of `scanFS1` is in the result and
satisfies the filter. -/
theorem scan_records_satisfy_filter_witness :
    mkMusicFileData "music/Song.MP3" "Song.MP3" 0 ∈
      (FileManager.load_music_files scanFS1 (fun _ => false) false).1 ∧
    (strEndsWithLower (mkMusicFileData "music/Song.MP3" "Song.MP3" 0).filename
        ".mp3" = true ∧
      strStartsWith (mkMusicFileData "music/Song.MP3" "Song.MP3" 0).filename
        "._" = false ∧
      scanFS1.isFile (mkMusicFileData "music/Song.MP3" "Song.MP3" 0).full_path = true ∧
      scanFS1.readable (mkMusicFileData "music/Song.MP3" "Song.MP3" 0).full_path
        = true) :=
  ⟨by decide,
    scan_records_satisfy_filter scanFS1 (fun _ => false) false
      (mkMusicFileData "music/Song.MP3" "Song.MP3" 0) (by decide)⟩

theorem normalize_dest_cases (env : NormEnv) (t : ℚ) (src dst : String) :
    (FileManager.normalize_and_save env t src dst).success = false ∨
    ∃ dd, (FileManager.normalize_and_save env t src dst).dest =
      DestFile.written dd := by
  cases hL : env.libsOk
  case false => left; simp [FileManager.normalize_and_save, hL]
  case true =>
  cases hS : env.sourceIsFile
  case false => left; simp [FileManager.normalize_and_save, hL, hS]
  case true =>
  cases hC1 : env.cancel1
  case true => left; simp [FileManager.normalize_and_save, hL, hS, hC1]
  case false =>
  cases hR : env.readResult with
  | error e => left; simp [FileManager.normalize_and_save, hL, hS, hC1, hR]
  | ok p =>
  obtain ⟨data, rate⟩ := p
  cases hE : data.isEmpty
  case true => left; simp [FileManager.normalize_and_save, hL, hS, hC1, hR, hE]
  case false =>
  cases hM : (env.meterRate != rate && !env.meterRateSetOk)
  case true => left; simp [FileManager.normalize_and_save, hL, hS, hC1, hR, hE, hM]
  case false =>
  cases hLU : env.lufsResult with
  | error le =>
    cases le <;> left <;>
      simp [FileManager.normalize_and_save, hL, hS, hC1, hR, hE, hM, hLU]
  | ok v =>
  cases hC2 : env.cancel2
  case true => left; simp [FileManager.normalize_and_save, hL, hS, hC1, hR, hE, hM, hLU, hC2]
  case false =>
  cases hSil : (!v.isFiniteB || v.ltNeg70)
  case true =>
    cases hW : env.writeSilent with
    | ok =>
      right
      exact ⟨data, by
        simp [FileManager.normalize_and_save, hL, hS, hC1, hR, hE, hM, hLU, hC2, hSil, hW]⟩
    | fail e lp =>
      left
      simp [FileManager.normalize_and_save, hL, hS, hC1, hR, hE, hM, hLU, hC2, hSil, hW]
  case false =>
  cases hC3 : env.cancel3
  case true =>
    left
    simp [FileManager.normalize_and_save, hL, hS, hC1, hR, hE, hM, hLU, hC2, hSil, hC3]
  case false =>
  cases hW : env.writeNorm with
  | ok =>
    right
    exact ⟨(applyGainAndLimit env.f32 env.pow10div20 t v.finiteVal data).1, by
      simp [FileManager.normalize_and_save, hL, hS, hC1, hR, hE, hM, hLU, hC2, hSil, hC3, hW]⟩
  | fail e lp =>
    left
    simp [FileManager.normalize_and_save, hL, hS, hC1, hR, hE, hM, hLU, hC2, hSil, hC3, hW]

/-- C6 (confirmed): `NormalizeWorker.run` calls `move_or_delete_original` on
the original source only when the inner `normalize_and_save` already
returned success - which entails the normalized output was written - and no
cancellation was observed at the post-normalization checkpoint; on any
failed or cancelled normalization the original is left untouched. -/
theorem original_deleted_only_after_success (env : NormWorkerEnv)
    (h : (NormalizeWorker.run env).deleteCalled = true) :
    (FileManager.normalize_and_save env.nenv env.targetLufs env.sourcePath
        env.destPath).success = true ∧
    (∃ d, (FileManager.normalize_and_save env.nenv env.targetLufs env.sourcePath
        env.destPath).dest = DestFile.written d) ∧
    env.poll1 = false := by
  unfold NormalizeWorker.run at h
  split at h
  · simp at h
  · dsimp only at h
    split at h
    · simp at h
    · next hpoll1 =>
      split at h
      · simp at h
      · next hsucc =>
        simp only [Bool.not_eq_true] at hpoll1
        have hs : (FileManager.normalize_and_save env.nenv env.targetLufs
            env.sourcePath env.destPath).success = true := by
          rcases Bool.eq_false_or_eq_true (FileManager.normalize_and_save env.nenv
              env.targetLufs env.sourcePath env.destPath).success with hx | hx
          · exact hx
          · exact absurd (by simp [hx]) hsucc
        have hw : ∃ d, (FileManager.normalize_and_save env.nenv env.targetLufs
            env.sourcePath env.destPath).dest = DestFile.written d := by
          rcases normalize_dest_cases env.nenv env.targetLufs env.sourcePath
              env.destPath with hbad | hw
          · rw [hs] at hbad; cases hbad
          · exact hw
        refine ⟨hs, hw, hpoll1⟩

/-- C6, witness: in the normalize-and-move run over `moveWorkerEnv` the
original is deleted, and indeed the inner normalization succeeded with a
written destination and no cancellation was observed. -/
theorem original_deleted_only_after_success_witness :
    (NormalizeWorker.run moveWorkerEnv).deleteCalled = true ∧
    ((FileManager.normalize_and_save moveWorkerEnv.nenv moveWorkerEnv.targetLufs
        moveWorkerEnv.sourcePath moveWorkerEnv.destPath).success = true ∧
      (∃ d, (FileManager.normalize_and_save moveWorkerEnv.nenv
          moveWorkerEnv.targetLufs moveWorkerEnv.sourcePath
          moveWorkerEnv.destPath).dest = DestFile.written d) ∧
      moveWorkerEnv.poll1 = false) :=
  ⟨rfl, original_deleted_only_after_success moveWorkerEnv rfl⟩

/-- C10 (confirmed): every `NormalizeResult` delivered through the
normalization worker's `finished` signal has `success = true` and
`output_path` equal to the destination the worker was constructed with; when
the inner normalization fails no `finished` event is emitted, and (unless a
cancellation was observed) the failure is delivered through `error`. -/
theorem finished_payload_invariants (env : NormWorkerEnv) :
    (∀ r : NormalizeResult, Ev.finished r ∈ (NormalizeWorker.run env).events →
      r.success = true ∧ r.output_path = some env.destPath) ∧
    ((FileManager.normalize_and_save env.nenv env.targetLufs env.sourcePath
        env.destPath).success = false →
      (∀ r : NormalizeResult, Ev.finished r ∉ (NormalizeWorker.run env).events) ∧
      (env.poll1 = false →
        ∃ msg, Ev.error msg ∈ (NormalizeWorker.run env).events)) := by
  unfold NormalizeWorker.run
  split
  · refine ⟨fun r hr => ?_, fun _ => ⟨fun r hr => ?_, fun _ => ?_⟩⟩
    · simp at hr
    · simp at hr
    · exact ⟨"Errore interno avvio worker normalizzazione.", List.mem_singleton_self _⟩
  · dsimp only
    split
    next hpoll =>
      refine ⟨fun r hr => ?_, fun _ => ⟨fun r hr => ?_, fun hp1 => ?_⟩⟩
      · simp at hr
      · simp at hr
      · rw [hp1] at hpoll; cases hpoll
    next hpoll =>
      split
      next hfailc =>
        refine ⟨fun r hr => ?_, fun _ => ⟨fun r hr => ?_, fun _ => ?_⟩⟩
        · simp at hr
        · simp at hr
        · exact ⟨_, List.mem_append_right _ (List.mem_singleton_self _)⟩
      next hsucc =>
        have hs : (FileManager.normalize_and_save env.nenv env.targetLufs
            env.sourcePath env.destPath).success = true := by
          rcases Bool.eq_false_or_eq_true (FileManager.normalize_and_save env.nenv
              env.targetLufs env.sourcePath env.destPath).success with hx | hx
          · exact hx
          · exact absurd (by simp [hx]) hsucc
        split
        next hdel =>
          split
          next hpoll2 =>
            refine ⟨fun r hr => by simp at hr,
              fun hfail => absurd hs (by simp [hfail])⟩
          next hpoll2 =>
            refine ⟨fun r hr => ?_, fun hfail => absurd hs (by simp [hfail])⟩
            simp only [List.singleton_append, List.cons_append, List.nil_append,
              List.mem_cons, List.not_mem_nil, or_false] at hr
            rcases hr with hr | hr | hr
            · cases hr
            · cases hr
            · cases hr
              exact ⟨rfl, rfl⟩
        next hdel =>
          split
          next hpoll2 =>
            refine ⟨fun r hr => by simp at hr,
              fun hfail => absurd hs (by simp [hfail])⟩
          next hpoll2 =>
            refine ⟨fun r hr => ?_, fun hfail => absurd hs (by simp [hfail])⟩
            simp only [List.singleton_append, List.mem_cons, List.not_mem_nil,
              or_false] at hr
            rcases hr with hr | hr
            · cases hr
            · cases hr
              exact ⟨rfl, rfl⟩

/-- C10, witness: the preview run over silent input delivers one `finished`
event whose payload has `success = true` and the constructed destination. -/
theorem finished_payload_invariants_witness :
    ({ success := true, message := "Copiato come WAV (silenzio)"
       measured_lufs := some LufsVal.negInf, output_path := some "out/a.wav"
       original_source_path := some "a.mp3", delete_success := none
       delete_message := none } : NormalizeResult).success = true ∧
    ({ success := true, message := "Copiato come WAV (silenzio)"
       measured_lufs := some LufsVal.negInf, output_path := some "out/a.wav"
       original_source_path := some "a.mp3", delete_success := none
       delete_message := none } : NormalizeResult).output_path =
      some previewWorkerEnv.destPath :=
  (finished_payload_invariants previewWorkerEnv).1 _ (by decide)

theorem oneTerminal_ite {α : Type} (c : Prop) [Decidable c]
    (A B : List (Ev α)) (hA : OneTerminalTrace A) (hB : OneTerminalTrace B) :
    OneTerminalTrace (if c then A else B) := by
  by_cases h : c
  · rw [if_pos h]; exact hA
  · rw [if_neg h]; exact hB

theorem oneTerminal_singleton {α : Type} (t : Ev α) (h : t.isTerminal = true) :
    OneTerminalTrace [t] := by
  refine ⟨by simp [List.countP_cons, h], [], t, rfl, h, by simp⟩

theorem oneTerminal_progress_cons {α : Type} (m : String) {l : List (Ev α)}
    (h : OneTerminalTrace l) : OneTerminalTrace (Ev.progress m :: l) := by
  obtain ⟨hc, pre, t, hl, ht, hpre⟩ := h
  subst hl
  refine ⟨?_, Ev.progress m :: pre, t, rfl, ht, ?_⟩
  · rw [List.countP_cons, hc]
    rfl
  · intro e he
    rcases List.mem_cons.mp he with he | he
    · subst he; rfl
    · exact hpre e he

/-- Emission discipline of the worker runs: every scan-worker and every
normalize-worker run emits exactly one terminal event (`finished`, `error`
or `cancelled`), it is the last event of the run's stream, every `progress`
event precedes it, and no `finished` or `error` follows a `cancelled`.
Emission is only half of the event contract: what the controller receives
is each emission repeated once per connection accumulated on the shared
class-level `WorkerSignals` object, which is where exactly-once delivery
breaks (see the delivery model above). -/
theorem worker_traces_single_terminal (senv : ScanWorkerEnv)
    (nenv : NormWorkerEnv) :
    OneTerminalTrace (FileScannerWorker.run senv) ∧
    OneTerminalTrace (NormalizeWorker.run nenv).events := by
  constructor
  · unfold FileScannerWorker.run
    dsimp only
    simp only [List.singleton_append, List.cons_append, List.nil_append]
    repeat' first
      | apply oneTerminal_ite
      | apply oneTerminal_progress_cons
      | exact oneTerminal_singleton _ rfl
  · unfold NormalizeWorker.run
    dsimp only
    simp only [apply_ite NormRunOut.events, List.singleton_append,
      List.cons_append, List.nil_append]
    repeat' first
      | apply oneTerminal_ite
      | apply oneTerminal_progress_cons
      | exact oneTerminal_singleton _ rfl

/-- C4 (code_bug): one run of the second sequentially submitted scan task
emits exactly one terminal event, but `start_worker` has by then connected
the controller's slots twice to the scan workers' shared class-level
`WorkerSignals` (lines 793 and 1389-1392, never disconnected), so that
single terminal emission is delivered to the controller twice - against the
claim's exactly-one-terminal-event-delivered-per-task contract. -/
theorem second_scan_terminal_delivered_twice :
    (FileScannerWorker.run scanWorkerEnv1).countP (fun e => e.isTerminal) = 1 ∧
    (deliverTrace (connectWorkerSignals (connectWorkerSignals freshSignals))
        (FileScannerWorker.run scanWorkerEnv1)).countP
      (fun e => e.isTerminal) = 2 :=
  ⟨by decide, by decide⟩
